import Mathlib

/-!
Shallow embedding of `get_bitwig_device_uuids.py`, a manual data-collection
script: it iterates a fixed catalog of device names, prompts the operator,
optionally reads the clipboard, validates the captured string by length, and
accumulates valid captures into a mapping that is finally serialized as JSON.

Python string primitives are modelled by Lean's `String.trim`, `String.toLower`
and `String.length` (codepoint count, matching Python `len` on `str`); the
clipboard read is modelled as an `Except` value supplied by the environment.
-/

namespace BitwigUuid

/-- The module-level catalog `BITWIG_DEVICES` (source lines 13-38). -/
def BITWIG_DEVICES : List String :=
  [ "EQ+",
    "Polysynth",
    "Phase-4",
    "FM-4",
    "Sampler",
    "Delay+",
    "Compressor+",
    "Limiter",
    "Reverb",
    "Chorus",
    "Flanger",
    "Phaser",
    "Distortion",
    "Filter+",
    "Tool",
    "Poly Grid",
    "FX Grid",
    "Note Grid",
    "Polymer",
    "Drum Machine",
    "Audio Receiver",
    "Note Receiver",
    "HW Instrument",
    "Clip Launcher" ]

/-- Per-item outcome, the implicit per-item state of the loop body
(`skipped | captured | invalid | errored`). -/
inductive Outcome where
  | skipped : Outcome
  | captured (uuid : String) : Outcome
  | invalid (uuid : String) : Outcome
  | errored (err : String) : Outcome
deriving DecidableEq, Repr

/-- The external environment one loop iteration observes: the operator's
console line for this item, and what a clipboard read would return at this
moment (`Except.error` models a raised clipboard exception). -/
structure ItemEnv where
  userInput : String
  clip : Except String String
deriving Repr

/-- ASCII whitespace, the characters `str.strip()` removes on the inputs this
script sees (space, tab, newline, carriage return, vertical tab, form feed). -/
def isPySpace (c : Char) : Bool :=
  c.toNat = 32 || c.toNat = 9 || c.toNat = 10 || c.toNat = 13 ||
    c.toNat = 11 || c.toNat = 12

/-- Drop leading whitespace from a character list. -/
def dropSpaceLeft : List Char → List Char
  | [] => []
  | c :: cs => if isPySpace c then dropSpaceLeft cs else c :: cs

/-- Python `str.strip()`: remove whitespace from both ends. -/
def pyStrip (s : String) : String :=
  String.mk ((dropSpaceLeft ((dropSpaceLeft s.data).reverse)).reverse)

/-- Python `str.lower()` on one character, for the ASCII range the catalog
and the skip token live in. -/
def pyLowerChar (c : Char) : Char :=
  if 65 ≤ c.toNat ∧ c.toNat ≤ 90 then Char.ofNat (c.toNat + 32) else c

/-- Python `str.lower()`, characterwise. -/
def pyLower (s : String) : String :=
  String.mk (s.data.map pyLowerChar)

/-- Python `len` on a `str`: the number of codepoints. -/
def pyLen (s : String) : Nat :=
  s.data.length

/-- The skip test `user_input.lower() == 's'` (source line 63).
Note the source does NOT strip whitespace before comparing. -/
def isSkip (userInput : String) : Bool :=
  pyLower userInput == "s"

/-- The capture-validity guard `uuid and len(uuid) == 36` (source line 70),
applied to the already-stripped clipboard string: Python truthiness of a
string is non-emptiness. -/
def captureGuard (uuid : String) : Bool :=
  (!(uuid == "")) && (pyLen uuid == 36)

/-- The spec's simpler predicate: only the length test. -/
def lengthOnlyGuard (uuid : String) : Bool :=
  pyLen uuid == 36

/-- One iteration of the loop body (source lines 61-76): check the skip
token; otherwise read the clipboard, strip, and classify. -/
def processItem (env : ItemEnv) : Outcome :=
  if isSkip env.userInput then
    Outcome.skipped
  else
    match env.clip with
    | Except.error e => Outcome.errored e
    | Except.ok raw =>
      let uuid := pyStrip raw
      if captureGuard uuid then Outcome.captured uuid else Outcome.invalid uuid

/-- The per-item status line the loop prints (source lines 64, 72, 74, 76). -/
def itemMessage (name : String) (o : Outcome) : String :=
  match o with
  | Outcome.skipped => "   ⏭️  Skipped " ++ name
  | Outcome.captured uuid => "   ✅ Captured: " ++ uuid
  | Outcome.invalid uuid => "   ❌ Invalid UUID format: " ++ uuid
  | Outcome.errored e => "   ❌ Error reading clipboard: " ++ e

/-- How one item's outcome updates the accumulator `device_uuids`
(source line 71): only a capture inserts, at the end, keyed by the item name. -/
def stepUuids (m : List (String × String)) (name : String) (o : Outcome) :
    List (String × String) :=
  match o with
  | Outcome.captured uuid => m ++ [(name, uuid)]
  | _ => m

/-- The visit trace of the loop (source lines 55-76): each catalog name paired
with its outcome, in catalog order, one iteration per environment supplied. -/
def runTrace (catalog : List String) (envs : List ItemEnv) :
    List (String × Outcome) :=
  List.zipWith (fun name env => (name, processItem env)) catalog envs

/-- The accumulator after the whole loop, starting from the empty dict
(source line 53). -/
def collectUuids (trace : List (String × Outcome)) : List (String × String) :=
  trace.foldl (fun m p => stepUuids m p.1 p.2) []

/-- The result mapping after the first `k` iterations of the run: the state
of `device_uuids` at an intermediate point of the loop. -/
def uuidsAfter (envs : List ItemEnv) (k : Nat) : List (String × String) :=
  collectUuids ((runTrace BITWIG_DEVICES envs).take k)

/-- The fixed output file name (source line 79). -/
def output_file : String := "bitwig_device_uuids.json"

/-- One hexadecimal digit, lowercase, as produced by Python's json encoder. -/
def hexDigit (n : Nat) : Char :=
  if n < 10 then Char.ofNat (48 + n) else Char.ofNat (87 + n)

/-- Four-digit lowercase hex, for a `\uXXXX` escape. -/
def hex4 (n : Nat) : String :=
  String.mk [hexDigit (n / 4096 % 16), hexDigit (n / 256 % 16),
             hexDigit (n / 16 % 16), hexDigit (n % 16)]

/-- Escaping of one character inside a JSON string literal, following
`json.dumps` defaults (`ensure_ascii=True`): short escapes for the common
control characters, `\uXXXX` for other controls and all non-ASCII,
surrogate pairs above the BMP. -/
def escapeChar (c : Char) : String :=
  if c = '\\' then "\\\\"
  else if c = '"' then "\\\""
  else if c = '\n' then "\\n"
  else if c = '\r' then "\\r"
  else if c = '\t' then "\\t"
  else if c.toNat = 8 then "\\b"
  else if c.toNat = 12 then "\\f"
  else if 32 ≤ c.toNat ∧ c.toNat < 127 then String.mk [c]
  else if c.toNat < 65536 then "\\u" ++ hex4 c.toNat
  else
    let v := c.toNat - 65536
    "\\u" ++ hex4 (55296 + v / 1024) ++ "\\u" ++ hex4 (56320 + v % 1024)

/-- A JSON string literal for `s`, per `json.dumps` defaults. -/
def encodeJsonString (s : String) : String :=
  "\"" ++ String.join (s.data.map escapeChar) ++ "\""

/-- `json.dumps(m, indent=2)` for a string-keyed, string-valued dict in
insertion order (source lines 81 and 84): `\x7b\x7d` for the empty dict,
otherwise one `  "key": "value"` line per entry, comma-separated. -/
def jsonDump (m : List (String × String)) : String :=
  match m with
  | [] => "\x7b\x7d"
  | _ =>
    "\x7b\n" ++
      String.intercalate ",\n"
        (m.map (fun p => "  " ++ encodeJsonString p.1 ++ ": " ++ encodeJsonString p.2)) ++
      "\n\x7d"

/-- The summary line `✅ Saved {n} UUIDs to {output_file}` (source line 83). -/
def savedMessage (n : Nat) : String :=
  "\n✅ Saved " ++ toString n ++ " UUIDs to " ++ output_file

/-- Everything `main` produces that the claims speak about: the visit trace,
the final mapping, the file written, and the two final console prints. -/
structure RunResult where
  trace : List (String × Outcome)
  device_uuids : List (String × String)
  fileName : String
  fileContent : String
  finalPrints : List String
deriving Repr

/-- The whole of `main` (source lines 40-84) as a function of the external
environment: the sequence of per-item console lines and clipboard states. -/
def runMain (envs : List ItemEnv) : RunResult :=
  let trace := runTrace BITWIG_DEVICES envs
  let uuids := collectUuids trace
  { trace := trace
    device_uuids := uuids
    fileName := output_file
    fileContent := jsonDump uuids
    finalPrints := [savedMessage uuids.length, jsonDump uuids] }

/-- `open(output_file, 'w')` followed by a full write: the previous content
of the path, if any, is discarded entirely. -/
def writeFileW (_prior : Option String) (content : String) : Option String :=
  some content

/-- The content of the output path after a run of the program against the
environment `envs`, when the path held `prior` beforehand. -/
def fileAfterRun (prior : Option String) (envs : List ItemEnv) : Option String :=
  writeFileW prior (runMain envs).fileContent

/-- The entry one trace element contributes to the mapping, if any. -/
def entryOf (p : String × Outcome) : Option (String × String) :=
  match p.2 with
  | Outcome.captured uuid => some (p.1, uuid)
  | _ => none

lemma stepUuids_eq_append (m : List (String × String)) (name : String) (o : Outcome) :
    stepUuids m name o = m ++ (entryOf (name, o)).toList := by
  cases o <;> simp [stepUuids, entryOf]

lemma foldl_stepUuids_eq (t : List (String × Outcome)) (m : List (String × String)) :
    t.foldl (fun m p => stepUuids m p.1 p.2) m = m ++ t.filterMap entryOf := by
  induction t generalizing m with
  | nil => simp
  | cons p t ih =>
    rw [List.foldl_cons, ih, stepUuids_eq_append]
    cases hp : entryOf (p.1, p.2) <;>
      simp_all [List.filterMap_cons, hp, List.append_assoc]

lemma collectUuids_eq_filterMap (t : List (String × Outcome)) :
    collectUuids t = t.filterMap entryOf := by
  simpa using foldl_stepUuids_eq t []

lemma keys_filterMap_sublist (t : List (String × Outcome)) :
    List.Sublist ((t.filterMap entryOf).map Prod.fst) (t.map Prod.fst) := by
  induction t with
  | nil => simp
  | cons p t ih =>
    obtain ⟨n, o⟩ := p
    cases o with
    | captured uuid =>
      simpa [entryOf, List.filterMap_cons] using List.Sublist.cons₂ n ih
    | skipped => simpa [entryOf, List.filterMap_cons] using List.Sublist.cons n ih
    | invalid uuid => simpa [entryOf, List.filterMap_cons] using List.Sublist.cons n ih
    | errored e => simpa [entryOf, List.filterMap_cons] using List.Sublist.cons n ih

lemma runTrace_map_fst (catalog : List String) (envs : List ItemEnv) :
    (runTrace catalog envs).map Prod.fst = catalog.take envs.length := by
  induction catalog generalizing envs with
  | nil => simp [runTrace]
  | cons name catalog ih =>
    cases envs with
    | nil => simp [runTrace]
    | cons env envs => simpa [runTrace, List.zipWith] using ih envs

lemma captureGuard_of_processItem_captured {env : ItemEnv} {u : String}
    (h : processItem env = Outcome.captured u) : captureGuard u = true := by
  cases hs : isSkip env.userInput with
  | true => simp [processItem, hs] at h
  | false =>
    cases hc : env.clip with
    | error e => simp [processItem, hs, hc] at h
    | ok raw =>
      cases hg : captureGuard (pyStrip raw) with
      | true =>
        simp only [processItem, hs, hc, hg, Bool.false_eq_true, if_false, if_true] at h
        cases h
        exact hg
      | false =>
        simp [processItem, hs, hc, hg] at h

lemma pyLen_of_captureGuard {u : String} (h : captureGuard u = true) : pyLen u = 36 := by
  have := (Bool.and_eq_true _ _).mp h
  simpa using this.2

lemma captureGuard_of_pyLen {s : String} (h : pyLen s = 36) : captureGuard s = true := by
  have hne : (s == "") = false := by
    cases hb : s == "" with
    | false => rfl
    | true =>
      have hs : s = "" := by simpa using hb
      rw [hs] at h
      exact absurd h (by decide)
  simp [captureGuard, hne, h]

lemma captureGuard_false_of_pyLen {s : String} (h : pyLen s ≠ 36) :
    captureGuard s = false := by
  have h2 : (pyLen s == 36) = false := beq_eq_false_iff_ne.mpr h
  simp [captureGuard, h2]

lemma mem_runTrace_captured {catalog : List String} {envs : List ItemEnv}
    {name u : String}
    (h : (name, Outcome.captured u) ∈ runTrace catalog envs) : pyLen u = 36 := by
  induction catalog generalizing envs with
  | nil => simp [runTrace] at h
  | cons n catalog ih =>
    cases envs with
    | nil => simp [runTrace] at h
    | cons env envs =>
      simp only [runTrace, List.zipWith, List.mem_cons] at h
      rcases h with h | h
      · have hcap : processItem env = Outcome.captured u := (congrArg Prod.snd h).symm
        exact pyLen_of_captureGuard (captureGuard_of_processItem_captured hcap)
      · exact ih h

lemma nodup_BITWIG_DEVICES : BITWIG_DEVICES.Nodup := by decide

/-- C1 counterexample: the claim says an input that equals `s` after stripping
and lowercasing is skipped with no clipboard read and no entry; but for the
console line consisting of a space followed by `s`, the code (which lowercases
without stripping) does not skip: a run on the real catalog reads the
clipboard and records an entry for the first item. -/
theorem C1_counterexample :
    pyLower (pyStrip " s") = "s" ∧
    processItem ⟨" s", Except.ok "123e4567-e89b-12d3-a456-426614174000"⟩ ≠
      Outcome.skipped ∧
    (runMain [⟨" s", Except.ok "123e4567-e89b-12d3-a456-426614174000"⟩]).device_uuids =
      [("EQ+", "123e4567-e89b-12d3-a456-426614174000")] := by
  refine ⟨by decide, by decide, by decide⟩

/-- C1 (amended): if the console input line, lowercased WITHOUT stripping
whitespace, equals the skip token `s`, then the item is skipped, the outcome
is independent of the clipboard state (no clipboard read), and no entry is
added to the result mapping. -/
theorem C1_skip (env : ItemEnv) (m : List (String × String)) (name : String)
    (h : pyLower env.userInput = "s") :
    processItem env = Outcome.skipped ∧
    (∀ clip : Except String String,
      processItem ⟨env.userInput, clip⟩ = Outcome.skipped) ∧
    stepUuids m name (processItem env) = m := by
  have hs : isSkip env.userInput = true := by
    simp [isSkip, h]
  refine ⟨by simp [processItem, hs], fun clip => by simp [processItem, isSkip, h], ?_⟩
  simp [processItem, hs, stepUuids]

/-- C1 witness: the concrete input `S` lowercases to `s` and is skipped. -/
theorem C1_witness :
    processItem ⟨"S", Except.ok "not-read"⟩ = Outcome.skipped :=
  (C1_skip ⟨"S", Except.ok "not-read"⟩ [] "EQ+" (by decide)).1

/-- C2: if the item is not skipped, the clipboard read succeeds, and the
stripped clipboard value has length exactly 36, then the outcome is a capture
of that stripped value, exactly one entry mapping the item name to it is
appended to the result mapping, and the printed status line is the success
message reporting the captured value. -/
theorem C2_capture (env : ItemEnv) (m : List (String × String)) (name raw : String)
    (hskip : isSkip env.userInput = false)
    (hclip : env.clip = Except.ok raw)
    (hlen : pyLen (pyStrip raw) = 36) :
    processItem env = Outcome.captured (pyStrip raw) ∧
    stepUuids m name (processItem env) = m ++ [(name, pyStrip raw)] ∧
    itemMessage name (processItem env) = "   ✅ Captured: " ++ pyStrip raw := by
  have hg : captureGuard (pyStrip raw) = true := captureGuard_of_pyLen hlen
  have hp : processItem env = Outcome.captured (pyStrip raw) := by
    simp [processItem, hskip, hclip, hg]
  exact ⟨hp, by rw [hp]; rfl, by rw [hp]; rfl⟩

/-- C2 witness: a clipboard value that strips to a 36-character string is
captured for a non-skip input. -/
theorem C2_witness :
    processItem ⟨"", Except.ok " 123e4567-e89b-12d3-a456-426614174000 "⟩ =
      Outcome.captured (pyStrip " 123e4567-e89b-12d3-a456-426614174000 ") :=
  (C2_capture ⟨"", Except.ok " 123e4567-e89b-12d3-a456-426614174000 "⟩ []
    "EQ+" " 123e4567-e89b-12d3-a456-426614174000 " (by decide) rfl (by decide)).1

/-- C3: if the item is not skipped, the clipboard read succeeds, but the
stripped clipboard value has length different from 36 (including the empty
string), then the outcome is invalid, no entry is added, and the printed
status line is the invalid-format message containing that stripped value. -/
theorem C3_invalid (env : ItemEnv) (m : List (String × String)) (name raw : String)
    (hskip : isSkip env.userInput = false)
    (hclip : env.clip = Except.ok raw)
    (hlen : pyLen (pyStrip raw) ≠ 36) :
    processItem env = Outcome.invalid (pyStrip raw) ∧
    stepUuids m name (processItem env) = m ∧
    itemMessage name (processItem env) =
      "   ❌ Invalid UUID format: " ++ pyStrip raw := by
  have hg : captureGuard (pyStrip raw) = false := captureGuard_false_of_pyLen hlen
  have hp : processItem env = Outcome.invalid (pyStrip raw) := by
    simp [processItem, hskip, hclip, hg]
  exact ⟨hp, by rw [hp]; rfl, by rw [hp]; rfl⟩

/-- C3 witness: a clipboard value stripping to the 3-character string `abc`
is rejected and recorded nowhere. -/
theorem C3_witness :
    processItem ⟨"go", Except.ok "abc"⟩ = Outcome.invalid "abc" ∧
    stepUuids [] "EQ+" (processItem ⟨"go", Except.ok "abc"⟩) = [] := by
  have h := C3_invalid ⟨"go", Except.ok "abc"⟩ [] "EQ+" "abc"
    (by decide) rfl (by decide)
  exact ⟨h.1, h.2.1⟩

/-- C5: if the item is not skipped and the clipboard read raises an error,
the outcome is errored, the printed status line is the warning containing the
underlying error detail, no entry is recorded, and the loop still processes
every remaining item: the trace length is unaffected by outcomes, so no
single-item failure aborts the run. -/
theorem C5_clipboard_error (env : ItemEnv) (m : List (String × String))
    (name e : String)
    (hskip : isSkip env.userInput = false)
    (hclip : env.clip = Except.error e) :
    processItem env = Outcome.errored e ∧
    stepUuids m name (processItem env) = m ∧
    itemMessage name (processItem env) = "   ❌ Error reading clipboard: " ++ e ∧
    (∀ envs : List ItemEnv,
      (runTrace BITWIG_DEVICES envs).length = min BITWIG_DEVICES.length envs.length) := by
  have hp : processItem env = Outcome.errored e := by
    simp [processItem, hskip, hclip]
  refine ⟨hp, by rw [hp]; rfl, by rw [hp]; rfl, fun envs => ?_⟩
  simp [runTrace, List.length_zipWith]

/-- C5 witness: a clipboard exception is downgraded to an errored outcome. -/
theorem C5_witness :
    processItem ⟨"", Except.error "Pyperclip could not find a copy mechanism"⟩ =
      Outcome.errored "Pyperclip could not find a copy mechanism" :=
  (C5_clipboard_error ⟨"", Except.error "Pyperclip could not find a copy mechanism"⟩
    [] "EQ+" "Pyperclip could not find a copy mechanism" (by decide) rfl).1

/-- C10: the guard `uuid and len(uuid) == 36` coincides with the plain length
test `len(uuid) == 36` on every string: the non-emptiness conjunct is
redundant because the empty string has length 0, not 36. -/
theorem C10_guard_equiv (uuid : String) :
    captureGuard uuid = lengthOnlyGuard uuid := by
  by_cases h : uuid = ""
  · rw [h]; decide
  · have hb : (uuid == "") = false := beq_eq_false_iff_ne.mpr h
    simp [captureGuard, lengthOnlyGuard, hb]

lemma uuidsAfter_keys_sublist (envs : List ItemEnv) (k : Nat) :
    List.Sublist ((uuidsAfter envs k).map Prod.fst) BITWIG_DEVICES := by
  rw [uuidsAfter, collectUuids_eq_filterMap]
  refine List.Sublist.trans (keys_filterMap_sublist _) ?_
  refine List.Sublist.trans
    (List.Sublist.map Prod.fst (List.take_sublist k (runTrace BITWIG_DEVICES envs))) ?_
  rw [runTrace_map_fst]
  exact List.take_sublist _ _

/-- C4: at every intermediate point of the run (after any number `k` of
iterations), the result mapping has pairwise-distinct keys drawn from the
24-entry catalog, every value has length exactly 36, and the mapping at step
`k` is a prefix of the mapping at step `k + 1`: entries are only ever
appended, never removed or updated. -/
theorem C4_invariants (envs : List ItemEnv) (k : Nat) :
    ((uuidsAfter envs k).map Prod.fst).Nodup ∧
    (∀ p ∈ uuidsAfter envs k, p.1 ∈ BITWIG_DEVICES ∧ pyLen p.2 = 36) ∧
    List.IsPrefix (uuidsAfter envs k) (uuidsAfter envs (k + 1)) ∧
    BITWIG_DEVICES.length = 24 := by
  refine ⟨nodup_BITWIG_DEVICES.sublist (uuidsAfter_keys_sublist envs k), ?_, ?_, by decide⟩
  · intro p hp
    constructor
    · exact (uuidsAfter_keys_sublist envs k).subset (List.mem_map_of_mem Prod.fst hp)
    · rw [uuidsAfter, collectUuids_eq_filterMap] at hp
      obtain ⟨q, hq, hqe⟩ := List.mem_filterMap.mp hp
      obtain ⟨qn, qo⟩ := q
      cases qo with
      | captured uuid =>
        have hqt : (qn, Outcome.captured uuid) ∈ runTrace BITWIG_DEVICES envs :=
          List.take_subset k _ hq
        have huuid : uuid = p.2 := by
          simpa [entryOf] using congrArg (fun r => Option.map Prod.snd r) hqe
        rw [← huuid]
        exact mem_runTrace_captured hqt
      | skipped => simp [entryOf] at hqe
      | invalid uuid => simp [entryOf] at hqe
      | errored e => simp [entryOf] at hqe
  · rw [uuidsAfter, uuidsAfter, List.take_succ, collectUuids_eq_filterMap,
      collectUuids_eq_filterMap, List.filterMap_append]
    exact ⟨_, rfl⟩

/-- C6: in every run whose environment supplies at least as many console
lines as there are catalog entries (the loop runs to the end), the trace
visits exactly the 24 catalog names, once each, in catalog order. -/
theorem C6_visits (envs : List ItemEnv)
    (h : BITWIG_DEVICES.length ≤ envs.length) :
    (runMain envs).trace.map Prod.fst = BITWIG_DEVICES ∧
    BITWIG_DEVICES.length = 24 ∧ BITWIG_DEVICES.Nodup := by
  refine ⟨?_, by decide, nodup_BITWIG_DEVICES⟩
  show (runTrace BITWIG_DEVICES envs).map Prod.fst = BITWIG_DEVICES
  rw [runTrace_map_fst]
  exact List.take_of_length_le h

/-- C6 witness: a run where the operator skips all 24 items still visits
every catalog entry in order. -/
theorem C6_witness :
    (runMain (List.replicate 24 ⟨"s", Except.ok ""⟩)).trace.map Prod.fst =
      BITWIG_DEVICES :=
  (C6_visits (List.replicate 24 ⟨"s", Except.ok ""⟩) (by decide)).1

/-- C7: the run writes the serialized mapping to the fixed name
`bitwig_device_uuids.json`; the file content after the run is exactly the
2-space-indented JSON dump of this run's mapping, whatever the path held
before; in particular after two consecutive runs the content is determined
solely by the second run's captures. -/
theorem C7_overwrite (prior : Option String) (envsFirst envs : List ItemEnv) :
    (runMain envs).fileName = "bitwig_device_uuids.json" ∧
    (runMain envs).fileContent = jsonDump (runMain envs).device_uuids ∧
    fileAfterRun prior envs = some (jsonDump (runMain envs).device_uuids) ∧
    fileAfterRun (fileAfterRun prior envsFirst) envs = fileAfterRun none envs :=
  ⟨rfl, rfl, rfl, rfl⟩

/-- C8: after serializing, the program prints exactly two final lines: the
saved-count summary whose count is the number of keys in the mapping written
to the file, and the JSON dump of that mapping again. -/
theorem C8_summary (envs : List ItemEnv) :
    (runMain envs).finalPrints =
      [savedMessage (runMain envs).device_uuids.length,
       (runMain envs).fileContent] ∧
    savedMessage (runMain envs).device_uuids.length =
      "\n✅ Saved " ++ toString (runMain envs).device_uuids.length ++
        " UUIDs to " ++ output_file :=
  ⟨rfl, rfl⟩

/-- C9: the run is deterministic in its observable inputs: two runs that see
the same sequence of console lines and the same sequence of clipboard
outcomes produce the same result mapping and the same file content. -/
theorem C9_deterministic (envs₁ envs₂ : List ItemEnv)
    (hin : envs₁.map ItemEnv.userInput = envs₂.map ItemEnv.userInput)
    (hclip : envs₁.map ItemEnv.clip = envs₂.map ItemEnv.clip) :
    (runMain envs₁).device_uuids = (runMain envs₂).device_uuids ∧
    (runMain envs₁).fileContent = (runMain envs₂).fileContent := by
  have heq : envs₁ = envs₂ := by
    induction envs₁ generalizing envs₂ with
    | nil =>
      cases envs₂ with
      | nil => rfl
      | cons b bs => simp at hin
    | cons a as ih =>
      cases envs₂ with
      | nil => simp at hin
      | cons b bs =>
        simp only [List.map_cons, List.cons.injEq] at hin hclip
        obtain ⟨h1, h2⟩ := hin
        obtain ⟨h3, h4⟩ := hclip
        obtain ⟨au, ac⟩ := a
        obtain ⟨bu, bc⟩ := b
        cases h1
        cases h3
        rw [ih bs h2 h4]
  rw [heq]
  exact ⟨rfl, rfl⟩

/-- C9 witness: two textually identical environments yield the same mapping. -/
theorem C9_witness :
    (runMain [⟨"go", Except.error "boom"⟩]).device_uuids =
      (runMain [⟨"go", Except.error "boom"⟩]).device_uuids :=
  (C9_deterministic [⟨"go", Except.error "boom"⟩] [⟨"go", Except.error "boom"⟩]
    rfl rfl).1

end BitwigUuid
